import Mathlib

/-!
Verification of `scripts/hal_alignment/hal_gene_liftover.py`.

The script performs a liftover between two haplotypes in a HAL file.  Its
pure logic — region-string parsing, bounds checking, flank adjustment, and
the order in which the driver performs its steps — is embedded below as
executable Lean definitions, translated function by function from the
Python source.  Machine integers are modelled as `Int` (Python integers
are arbitrary precision), dictionaries as association lists, and the
driver's interaction with the filesystem and external tools as an explicit
list of events and a list of file paths.
-/

namespace HalGeneLiftover

instance {ε α : Type} [DecidableEq ε] [DecidableEq α] : DecidableEq (Except ε α) := fun
  | .ok a, .ok b =>
    if h : a = b then .isTrue (by rw [h]) else .isFalse (by intro hc; cases hc; exact h rfl)
  | .error a, .error b =>
    if h : a = b then .isTrue (by rw [h]) else .isFalse (by intro hc; cases hc; exact h rfl)
  | .ok _, .error _ => .isFalse (by intro hc; cases hc)
  | .error _, .ok _ => .isFalse (by intro hc; cases hc)

/-- Mirrors the `SimpleRegion` NamedTuple of the script: a simple region
with chromosome, 0-based half-open start/end, and strand string. -/
structure SimpleRegion where
  chrom : String
  start : Int
  «end» : Int
  strand : String
deriving DecidableEq, Repr

/-- The three `ValueError` cases raised by `make_src_region_file`
(lines 122-132): unknown chromosome (the message names the chromosome),
negative start (the message carries the start), and end beyond the
chromosome length (the message carries the end and the length). -/
inductive RegionError where
  | unknownChrom (chrom : String)
  | badStart (start : Int)
  | badEnd («end» chromSize : Int)
deriving DecidableEq, Repr

/-- One output line of the BED file written by `make_src_region_file`
(line 137): chrom, flanked start, flanked end, name, score, strand. -/
structure BedRecord where
  chrom : String
  start : Int
  «end» : Int
  name : String
  score : Int
  strand : String
deriving DecidableEq, Repr

/-- The per-region body of the loop of `make_src_region_file`
(lines 120-138): look up the chromosome size (raising on a missing key),
validate `start >= 0` and `end <= chrom_size`, then compute
`flanked_start = max(0, start - flank_length)` and
`flanked_end = min(end + flank_length, chrom_size)` and build the output
record with the constant name `'.'` and constant score `0`. -/
def processRegion (chromSizes : List (String × Int)) (flankLength : Int)
    (region : SimpleRegion) : Except RegionError BedRecord :=
  match chromSizes.lookup region.chrom with
  | none => .error (.unknownChrom region.chrom)
  | some chromSize =>
    if region.start < 0 then
      .error (.badStart region.start)
    else if region.«end» > chromSize then
      .error (.badEnd region.«end» chromSize)
    else
      let flankedStart := max 0 (region.start - flankLength)
      let flankedEnd := min (region.«end» + flankLength) chromSize
      .ok ⟨region.chrom, flankedStart, flankedEnd, ".", 0, region.strand⟩

/-- Embeds `make_src_region_file` (lines 101-138).  The Python function
writes one BED line per region, in input order, raising `ValueError` at
the first invalid region; lines already written stay in the file.  The
embedding therefore returns both the list of records written before any
error and the error itself, if one was raised. -/
def make_src_region_file (regions : List SimpleRegion)
    (chromSizes : List (String × Int)) (flankLength : Int) :
    List BedRecord × Option RegionError :=
  match regions with
  | [] => ([], none)
  | r :: rs =>
    match processRegion chromSizes flankLength r with
    | .error e => ([], some e)
    | .ok b =>
      let rest := make_src_region_file rs chromSizes flankLength
      (b :: rest.1, rest.2)

/-- The capture groups of the regex of `parse_region` (lines 154-156):
`^(?P<chrom>[^:]+):(?P<start>[0-9]+)-(?P<end>[0-9]+):(?P<strand>1|-1)$`. -/
structure RegionMatch where
  chrom : String
  startGroup : String
  endGroup : String
  strandGroup : String
deriving DecidableEq, Repr

/-- Splitting of a character list at every occurrence of a separator
character, keeping empty parts, as Python `str.split(sep)` and Lean
`String.splitOn` do for a one-character separator. -/
def splitOnChar (sep : Char) : List Char → List (List Char)
  | [] => [[]]
  | c :: cs =>
    let r := splitOnChar sep cs
    if c = sep then [] :: r
    else
      match r with
      | [] => [[c]]
      | g :: gs => (c :: g) :: gs

/-- A nonempty list of decimal digits, i.e. the language of the regex
fragment `[0-9]+`. -/
def isDigitList (l : List Char) : Bool :=
  !l.isEmpty && l.all Char.isDigit

/-- Decimal value of a digit list; on the digit-only capture groups it
agrees with Python `int()`. -/
def digitsToNat (l : List Char) : Nat :=
  l.foldl (fun n c => 10 * n + (c.toNat - 48)) 0

/-- Matching of the region regex of `parse_region` (lines 154-157).
Because `chrom` is `[^:]+`, the start and end groups are `[0-9]+` and the
strand group is `1|-1` — none of which can contain `:` — a matching text
is exactly one with two `:` separators whose first part is nonempty,
whose middle part is `digits-digits`, and whose last part is `1` or `-1`.
The `$` anchor is modelled as end of input (Python's `$` additionally
tolerates a single trailing newline; texts with a trailing newline are
outside this model). -/
def seq_region_match (text : String) : Option RegionMatch :=
  match splitOnChar ':' text.data with
  | [chrom, interval, strand] =>
    if chrom.isEmpty then none
    else
      match splitOnChar '-' interval with
      | [s, e] =>
        if isDigitList s && isDigitList e
            && (strand == ['1'] || strand == ['-', '1']) then
          some ⟨⟨chrom⟩, ⟨s⟩, ⟨e⟩, ⟨strand⟩⟩
        else none
      | _ => none
  | _ => none

/-- The two `ValueError` cases raised by `parse_region`: the text does not
match the regex (line 165), or the converted interval is empty or
inverted (line 172). -/
inductive ParseError where
  | noMatch
  | invertedInterval
deriving DecidableEq, Repr

/-- Total decimal conversion used for the digit-only capture groups; on a
digit string it agrees with Python `int()`. -/
def strToNat (s : String) : Nat :=
  digitsToNat s.data

/-- Embeds `parse_region` (lines 141-174): match the region regex (raising
on no match), convert to 0-based half-open coordinates by
`region_start = int(start) - 1`, `region_end = int(end)`, map strand
`-1` to `'-'` and otherwise to `'+'`, and raise when
`region_start >= region_end`. -/
def parse_region (text : String) : Except ParseError SimpleRegion :=
  match seq_region_match text with
  | none => .error .noMatch
  | some m =>
    let region_start : Int := (strToNat m.startGroup : Int) - 1
    let region_end : Int := (strToNat m.endGroup : Int)
    let region_strand : String := if m.strandGroup == "-1" then "-" else "+"
    if region_start ≥ region_end then
      .error .invertedInterval
    else
      .ok ⟨m.chrom, region_start, region_end, region_strand⟩

/-- A `RuntimeError` raised for a failed stage of a two-stage piped
invocation: the message names the failing program and embeds the negated
return code (`terminated with signal {-returncode}`); when the stage was
killed by signal `s` the return code is `-s`, so the embedded value is
the signal number. -/
inductive PipedStageError where
  | stageFailed (stageName : String) (signalCode : Int)
deriving DecidableEq, Repr

/-- The return-code checking shared by `export_2bit_file` (lines 68-75)
and `run_hal_liftover` (lines 221-228): the consumer stage `p2` is waited
on and checked first; if its return code is nonzero a `RuntimeError`
naming it is raised; only then is the producer stage `p1` checked the
same way. `ret1`/`ret2` are the return codes the two stages finish with. -/
def checkPipedPair (stage1 stage2 : String) (ret1 ret2 : Int) :
    Except PipedStageError Unit :=
  if ret2 ≠ 0 then .error (.stageFailed stage2 (-ret2))
  else if ret1 ≠ 0 then .error (.stageFailed stage1 (-ret1))
  else .ok ()

/-- Outcome of `export_2bit_file` (lines 53-75) as a function of the two
stages' return codes: `hal2fasta` (producer) piped into `faToTwoBit`
(consumer). -/
def export_2bit_file_check (ret1 ret2 : Int) : Except PipedStageError Unit :=
  checkPipedPair "hal2fasta" "faToTwoBit" ret1 ret2

/-- Outcome of `run_hal_liftover` (lines 195-228) as a function of the two
stages' return codes: `halLiftover` (producer) piped into `pslPosTarget`
(consumer/normalizer). -/
def run_hal_liftover_check (ret1 ret2 : Int) : Except PipedStageError Unit :=
  checkPipedPair "halLiftover" "pslPosTarget" ret1 ret2

/-- The steps of the `__main__` driver that invoke an external tool or
load data, in the order the script can perform them. -/
inductive PipelineEvent where
  | exportSrc
  | exportDest
  | loadChromSizes
  | halLiftover
  | axtChain
deriving DecidableEq, Repr

/-- The errors the `__main__` driver can raise itself (external tools are
modelled as succeeding): a usage error from the mutually exclusive
argument group (lines 239-241), the negative-flank `ValueError`
(lines 259-260), a `parse_region` failure (line 279), or a
`make_src_region_file` failure (line 285). -/
inductive DriverError where
  | usageError
  | badFlank (flank : Int)
  | formatError (e : ParseError)
  | regionError (e : RegionError)
deriving DecidableEq, Repr

/-- The cached 2bit artifact path for a genome: the script derives an
auxiliary directory from the HAL file path (line 263) and stores
`{genome}.2bit` inside it (lines 266, 270).  The stripping of the HAL
file extension by `os.path.splitext` is abstracted; what matters is that
the path is a deterministic function of the archive path and the genome
name. -/
def aux2bitPath (halFile genome : String) : String :=
  halFile ++ "_files/" ++ genome ++ ".2bit"

/-- The command-line inputs of the driver that its control flow depends
on.  A BED-file source is modelled as the list of regions the BED file
contains (`pybedtools.BedTool` reads them lazily; they are first consumed
inside `make_src_region_file`). -/
structure DriverArgs where
  halFile : String
  srcGenome : String
  destGenome : String
  srcRegion : Option String
  srcBedRegions : Option (List SimpleRegion)
  flank : Int
deriving DecidableEq, Repr

/-- The memoized export phase of the driver (lines 266-272): for the
source genome and then the destination genome, the external export runs
only if the cached 2bit file does not already exist; a successful export
creates that file.  The filesystem is the list of existing paths; the
returned event list records which exports actually ran.  The two
sequential `isfile` tests are case-expanded here: the source export runs
first and creates its file, so the destination test sees the updated
filesystem. -/
def exportPhase (fs : List String) (args : DriverArgs) :
    List String × List PipelineEvent :=
  if aux2bitPath args.halFile args.srcGenome ∈ fs then
    if aux2bitPath args.halFile args.destGenome ∈ fs then
      (fs, [])
    else
      (aux2bitPath args.halFile args.destGenome :: fs, [.exportDest])
  else
    if aux2bitPath args.halFile args.destGenome
        ∈ aux2bitPath args.halFile args.srcGenome :: fs then
      (aux2bitPath args.halFile args.srcGenome :: fs, [.exportSrc])
    else
      (aux2bitPath args.halFile args.destGenome
         :: aux2bitPath args.halFile args.srcGenome :: fs,
       [.exportSrc, .exportDest])

/-- The steps of the driver after building the source region list
(lines 283-292): load the chromosome sizes, build the region file, and —
only if that succeeds — run the liftover and the chaining. -/
def regionFileSteps (regions : List SimpleRegion)
    (chromSizes : List (String × Int)) (flank : Int) :
    List PipelineEvent × Option DriverError :=
  match (make_src_region_file regions chromSizes flank).2 with
  | some e => ([.loadChromSizes], some (.regionError e))
  | none => ([.loadChromSizes, .halLiftover, .axtChain], none)

/-- The steps of the driver inside the temporary directory (lines
274-292): for single-region input the region text is parsed first
(line 279, before `load_chrom_sizes` on line 283); a BED source skips
parsing and goes straight to the region-file steps. -/
def driverSteps (args : DriverArgs) (chromSizes : List (String × Int)) :
    List PipelineEvent × Option DriverError :=
  match args.srcRegion with
  | some text =>
    match parse_region text with
    | .error e => ([], some (.formatError e))
    | .ok r => regionFileSteps [r] chromSizes args.flank
  | none =>
    match args.srcBedRegions with
    | some rs => regionFileSteps rs chromSizes args.flank
    | none => ([], some .usageError)

/-- Embeds the `__main__` driver (lines 231-292).  In source order:
argparse rejects a run unless exactly one of `--src-region` and
`--src-bed-file` is given (lines 239-241); a negative flank raises
(lines 259-260); the two memoized exports run (lines 266-272); then the
in-workspace steps run (lines 274-292).  `chromSizes` stands for the
table `twoBitInfo` reports for the source genome; external tools are
modelled as succeeding, and the returned trace records which external
steps ran, in order, alongside the updated filesystem and the outcome. -/
def runDriver (fs : List String) (args : DriverArgs)
    (chromSizes : List (String × Int)) :
    List String × List PipelineEvent × Option DriverError :=
  if args.srcRegion.isSome = args.srcBedRegions.isSome then
    (fs, [], some .usageError)
  else if args.flank < 0 then
    (fs, [], some (.badFlank args.flank))
  else
    let ex := exportPhase fs args
    let rest := driverSteps args chromSizes
    (ex.1, ex.2 ++ rest.1, rest.2)

/-- Acceptance of a single region by the validation of
`make_src_region_file`: true exactly when none of the three checks of
lines 122-132 raises. -/
def regionAccepted (chromSizes : List (String × Int)) (flankLength : Int)
    (r : SimpleRegion) : Bool :=
  match processRegion chromSizes flankLength r with
  | .ok _ => true
  | .error _ => false

/-- The BED record `make_src_region_file` writes for an accepted region
(the error branch is a placeholder that is never relevant under a
`regionAccepted` hypothesis). -/
def emitOf (chromSizes : List (String × Int)) (flankLength : Int)
    (r : SimpleRegion) : BedRecord :=
  match processRegion chromSizes flankLength r with
  | .ok b => b
  | .error _ => ⟨r.chrom, r.start, r.«end», ".", 0, r.strand⟩

/-!
Sanity checks of the embedding on concrete inputs, mirroring runs of the
Python functions.
-/

example : parse_region "chr1:101-200:-1" = .ok ⟨"chr1", 100, 200, "-"⟩ := by decide
example : parse_region "chr1:5-3:1" = .error .invertedInterval := by decide
example : parse_region "chr1:0-5:1" = .ok ⟨"chr1", -1, 5, "+"⟩ := by decide
example : parse_region "garbage" = .error .noMatch := by decide
example : parse_region "chr1:5-5:1" = .ok ⟨"chr1", 4, 5, "+"⟩ := by decide
example : parse_region "chr1:5-4:1" = .error .invertedInterval := by decide
example : parse_region "chr-1:5-9:-1" = .ok ⟨"chr-1", 4, 9, "-"⟩ := by decide
example : parse_region "chr1:5-9:+1" = .error .noMatch := by decide
example : parse_region ":5-9:1" = .error .noMatch := by decide
example : parse_region "chr1:5-9:1:1" = .error .noMatch := by decide
example : parse_region "chr1:1--2:1" = .error .noMatch := by decide

example :
    make_src_region_file [⟨"chr", 100, 200, "+"⟩] [("chr", 1000)] 50
      = ([⟨"chr", 50, 250, ".", 0, "+"⟩], none) := by decide

example :
    make_src_region_file [⟨"chr", 100, 200, "+"⟩] [("chr", 1000)] 2000
      = ([⟨"chr", 0, 1000, ".", 0, "+"⟩], none) := by decide

example :
    runDriver [] ⟨"input.hal", "GRCh38", "CHM13", some "garbage", none, 0⟩ []
      = (["input.hal_files/CHM13.2bit", "input.hal_files/GRCh38.2bit"],
         [.exportSrc, .exportDest], some (.formatError .noMatch)) := by decide

/-- C1: for a region whose chromosome has length `L` in the table, with
`0 ≤ start`, `end ≤ L` and `0 ≤ flank`, `make_src_region_file` emits
exactly the interval `(max 0 (start - flank), min (end + flank) L)`;
that interval never has a start below `0` or an end above `L`, flank `0`
leaves the interval unchanged, and the spec's two concrete examples —
length 1000, region (100, 200), flank 50 giving (50, 250) and flank 2000
giving (0, 1000) — hold. -/
theorem claim_C1 (chrom strand : String) (start endPos flank L : Int)
    (sizes : List (String × Int))
    (hL : sizes.lookup chrom = some L)
    (hstart : 0 ≤ start) (hend : endPos ≤ L) (hflank : 0 ≤ flank) :
    make_src_region_file [⟨chrom, start, endPos, strand⟩] sizes flank
        = ([⟨chrom, max 0 (start - flank), min (endPos + flank) L, ".", 0, strand⟩],
           none)
      ∧ 0 ≤ max 0 (start - flank)
      ∧ min (endPos + flank) L ≤ L
      ∧ (flank = 0 → max 0 (start - flank) = start ∧ min (endPos + flank) L = endPos)
      ∧ make_src_region_file [⟨"chr", 100, 200, "+"⟩] [("chr", 1000)] 50
          = ([⟨"chr", 50, 250, ".", 0, "+"⟩], none)
      ∧ make_src_region_file [⟨"chr", 100, 200, "+"⟩] [("chr", 1000)] 2000
          = ([⟨"chr", 0, 1000, ".", 0, "+"⟩], none) := by
  refine ⟨?_, le_max_left 0 _, min_le_right _ _, ?_, by decide, by decide⟩
  · have h1 : ¬ (start < 0) := by omega
    have h2 : ¬ (endPos > L) := by omega
    simp [make_src_region_file, processRegion, hL, h1, h2]
  · intro h
    subst h
    rw [sub_zero, add_zero]
    exact ⟨max_eq_right hstart, min_eq_left hend⟩

/-- Witness for C1 at the spec's concrete input: chromosome length 1000,
region (100, 200), flank 50. -/
theorem claim_C1_witness :
    make_src_region_file [⟨"chr", 100, 200, "+"⟩] [("chr", 1000)] 50
      = ([⟨"chr", 50, 250, ".", 0, "+"⟩], none) :=
  (claim_C1 "chr" "+" 100 200 50 1000 [("chr", 1000)]
    (by decide) (by decide) (by decide) (by decide)).1

/-- C3: `make_src_region_file` fails with an error naming the chromosome
when the chromosome is absent from the length table; fails when the start
is negative; fails when the end strictly exceeds the chromosome length
(with the `badEnd` error when the start check passes, and in any case
with some error); and accepts a region whose end exactly equals the
chromosome length. -/
theorem claim_C3 (r : SimpleRegion) (flank L : Int) (sizes : List (String × Int)) :
    (sizes.lookup r.chrom = none →
       make_src_region_file [r] sizes flank = ([], some (.unknownChrom r.chrom)))
  ∧ (sizes.lookup r.chrom = some L → r.start < 0 →
       make_src_region_file [r] sizes flank = ([], some (.badStart r.start)))
  ∧ (sizes.lookup r.chrom = some L → 0 ≤ r.start → L < r.«end» →
       make_src_region_file [r] sizes flank = ([], some (.badEnd r.«end» L)))
  ∧ (sizes.lookup r.chrom = some L → L < r.«end» →
       (make_src_region_file [r] sizes flank).2.isSome = true)
  ∧ (sizes.lookup r.chrom = some L → 0 ≤ r.start → r.«end» = L →
       (make_src_region_file [r] sizes flank).2 = none) := by
  refine ⟨?_, ?_, ?_, ?_, ?_⟩
  · intro hnone
    simp [make_src_region_file, processRegion, hnone]
  · intro hL hneg
    simp [make_src_region_file, processRegion, hL, hneg]
  · intro hL hnn hgt
    have h1 : ¬ (r.start < 0) := by omega
    have h2 : r.«end» > L := by omega
    simp [make_src_region_file, processRegion, hL, h1, h2]
  · intro hL hgt
    by_cases h1 : r.start < 0
    · simp [make_src_region_file, processRegion, hL, h1]
    · have h2 : r.«end» > L := by omega
      simp [make_src_region_file, processRegion, hL, h1, h2]
  · intro hL hnn heq
    have h1 : ¬ (r.start < 0) := by omega
    have h2 : ¬ (r.«end» > L) := by omega
    simp [make_src_region_file, processRegion, hL, h1, h2]

/-- Witness for C3: the unknown-chromosome case at a concrete input. -/
theorem claim_C3_witness :
    make_src_region_file [⟨"chrX", 0, 5, "+"⟩] [("chr1", 10)] 0
      = ([], some (.unknownChrom "chrX")) :=
  (claim_C3 ⟨"chrX", 0, 5, "+"⟩ 0 10 [("chr1", 10)]).1 (by decide)

/-- C10: `make_src_region_file` performs no empty/inverted-interval check
of its own: a region whose chromosome is in the table, whose start is
non-negative and whose end is within the chromosome length is emitted
without error even when `start ≥ end`, and the emitted flanked interval
is then itself empty or inverted whenever the flank is 0. -/
theorem claim_C10 (r : SimpleRegion) (flank L : Int) (sizes : List (String × Int))
    (hL : sizes.lookup r.chrom = some L)
    (hstart : 0 ≤ r.start) (hend : r.«end» ≤ L) (hinv : r.«end» ≤ r.start) :
    make_src_region_file [r] sizes flank
      = ([⟨r.chrom, max 0 (r.start - flank), min (r.«end» + flank) L, ".", 0,
           r.strand⟩], none) := by
  have h1 : ¬ (r.start < 0) := by omega
  have h2 : ¬ (r.«end» > L) := by omega
  simp [make_src_region_file, processRegion, hL, h1, h2]

/-- Witness for C10: the inverted region (5, 3) on a chromosome of length
10 is emitted without error. -/
theorem claim_C10_witness :
    make_src_region_file [⟨"chr", 5, 3, "+"⟩] [("chr", 10)] 1
      = ([⟨"chr", 4, 4, ".", 0, "+"⟩], none) :=
  claim_C10 ⟨"chr", 5, 3, "+"⟩ 1 10 [("chr", 10)]
    (by decide) (by decide) (by decide) (by decide)

/-- C6: in both two-stage piped invocations (`hal2fasta | faToTwoBit` for
export, `halLiftover | pslPosTarget` for liftover) the consumer stage is
checked first — a nonzero consumer return code is reported regardless of
the producer's — and the raised error names the failing stage and embeds
the negated return code of exactly that stage (the signal number when the
stage was killed by a signal). -/
theorem claim_C6 (ret1 ret2 : Int) :
    (ret2 ≠ 0 →
        export_2bit_file_check ret1 ret2
            = .error (.stageFailed "faToTwoBit" (-ret2))
      ∧ run_hal_liftover_check ret1 ret2
            = .error (.stageFailed "pslPosTarget" (-ret2)))
  ∧ (ret2 = 0 → ret1 ≠ 0 →
        export_2bit_file_check ret1 ret2
            = .error (.stageFailed "hal2fasta" (-ret1))
      ∧ run_hal_liftover_check ret1 ret2
            = .error (.stageFailed "halLiftover" (-ret1)))
  ∧ (ret1 = 0 → ret2 = 0 →
        export_2bit_file_check ret1 ret2 = .ok ()
      ∧ run_hal_liftover_check ret1 ret2 = .ok ()) := by
  unfold export_2bit_file_check run_hal_liftover_check checkPipedPair
  refine ⟨?_, ?_, ?_⟩
  · intro h2
    rw [if_pos h2, if_pos h2]
    exact ⟨rfl, rfl⟩
  · intro h2 h1
    subst h2
    simp [h1]
  · intro h1 h2
    subst h1
    subst h2
    simp

/-- Witness for C6: a consumer failure (return code 1, from an exit) and
a producer failure (return code -9, from SIGKILL) at concrete inputs. -/
theorem claim_C6_witness :
    (export_2bit_file_check 0 1 = .error (.stageFailed "faToTwoBit" (-1))
      ∧ run_hal_liftover_check 0 1 = .error (.stageFailed "pslPosTarget" (-1)))
  ∧ (export_2bit_file_check (-9) 0 = .error (.stageFailed "hal2fasta" 9)
      ∧ run_hal_liftover_check (-9) 0 = .error (.stageFailed "halLiftover" 9)) :=
  ⟨(claim_C6 0 1).1 (by decide), (claim_C6 (-9) 0).2.1 rfl (by decide)⟩

/-- Helper: when the region regex does not match, `parse_region` raises
the could-not-be-parsed error. -/
theorem parse_region_of_no_match (text : String)
    (hm : seq_region_match text = none) :
    parse_region text = .error .noMatch := by
  unfold parse_region
  rw [hm]

/-- Helper: when the region regex matches with groups `m`, `parse_region`
is the inverted-interval test applied to the converted coordinates. -/
theorem parse_region_of_match (text : String) (m : RegionMatch)
    (hm : seq_region_match text = some m) :
    parse_region text =
      if (strToNat m.startGroup : Int) - 1 ≥ (strToNat m.endGroup : Int) then
        .error .invertedInterval
      else
        .ok ⟨m.chrom, (strToNat m.startGroup : Int) - 1, (strToNat m.endGroup : Int),
             if m.strandGroup == "-1" then "-" else "+"⟩ := by
  unfold parse_region
  rw [hm]

/-- Counterexample to C2 as stated: the text `chr1:5-3:1` matches the
pattern `chrom:S-E:strand`, yet `parse_region` raises the
inverted-interval error instead of returning a Region. -/
theorem claim_C2_cex :
    seq_region_match "chr1:5-3:1" = some ⟨"chr1", "5", "3", "1"⟩
  ∧ parse_region "chr1:5-3:1" = .error .invertedInterval := by decide

/-- C2 (amended): for every region text matching the pattern
`chrom:S-E:strand` — with S, E digit strings, strand `1` or `-1` — whose
converted interval is non-empty (`S - 1 < E`), `parse_region` returns the
Region with that chromosome, `start = S - 1`, `end = E`, and strand `-`
exactly when the text strand is `-1` and `+` when it is `1`; in
particular `chr1:101-200:-1` parses to (chr1, 100, 200, -). -/
theorem claim_C2 (text : String) (m : RegionMatch)
    (hm : seq_region_match text = some m)
    (hlt : (strToNat m.startGroup : Int) - 1 < (strToNat m.endGroup : Int)) :
    parse_region text
        = .ok ⟨m.chrom, (strToNat m.startGroup : Int) - 1,
               (strToNat m.endGroup : Int),
               if m.strandGroup == "-1" then "-" else "+"⟩
      ∧ parse_region "chr1:101-200:-1" = .ok ⟨"chr1", 100, 200, "-"⟩ := by
  refine ⟨?_, by decide⟩
  rw [parse_region_of_match text m hm, if_neg (by omega)]

/-- Witness for C2 (amended) at the spec's example text. -/
theorem claim_C2_witness :
    parse_region "chr1:101-200:-1"
      = .ok ⟨"chr1", (strToNat "101" : Int) - 1, (strToNat "200" : Int),
             if ("-1" : String) == "-1" then "-" else "+"⟩ :=
  (claim_C2 "chr1:101-200:-1" ⟨"chr1", "101", "200", "-1"⟩
    (by decide) (by decide)).1

/-- Counterexample to C4 as stated: `chr1:0-5:1` is an accepted input —
`parse_region` returns a Region for it — but that Region has
`start = -1`, violating the non-negativity half of the Region
invariant. -/
theorem claim_C4_cex :
    parse_region "chr1:0-5:1" = .ok ⟨"chr1", -1, 5, "+"⟩
  ∧ ¬ (0 ≤ (-1 : Int)) := by decide

/-- C4 (amended): every Region returned by `parse_region` on accepted
input satisfies `start < end` and `start ≥ -1`; the full non-negativity
invariant fails exactly on texts whose 1-based start field is `0`, which
yield `start = -1`. -/
theorem claim_C4 (text : String) (r : SimpleRegion)
    (h : parse_region text = .ok r) :
    r.start < r.«end» ∧ -1 ≤ r.start := by
  cases hm : seq_region_match text with
  | none =>
    rw [parse_region_of_no_match text hm] at h
    exact Except.noConfusion h
  | some m =>
    rw [parse_region_of_match text m hm] at h
    by_cases hc : (strToNat m.startGroup : Int) - 1 ≥ (strToNat m.endGroup : Int)
    · rw [if_pos hc] at h
      exact Except.noConfusion h
    · rw [if_neg hc] at h
      injection h with h
      subst h
      constructor
      · simpa using not_le.mp hc
      · simp only []
        omega

/-- Witness for C4 (amended) at a concrete accepted text. -/
theorem claim_C4_witness :
    (⟨"chr1", 100, 200, "-"⟩ : SimpleRegion).start
        < (⟨"chr1", 100, 200, "-"⟩ : SimpleRegion).«end»
  ∧ -1 ≤ (⟨"chr1", 100, 200, "-"⟩ : SimpleRegion).start :=
  claim_C4 "chr1:101-200:-1" ⟨"chr1", 100, 200, "-"⟩ (by decide)

/-- C8: `parse_region` raises for every text the region regex does not
match, and for every matching text whose converted interval is empty or
inverted (`S - 1 ≥ E`); in both cases it returns an error, never a
Region. -/
theorem claim_C8 (text : String) (m : RegionMatch) :
    (seq_region_match text = none → parse_region text = .error .noMatch)
  ∧ (seq_region_match text = some m →
       (strToNat m.endGroup : Int) ≤ (strToNat m.startGroup : Int) - 1 →
       parse_region text = .error .invertedInterval) := by
  constructor
  · exact parse_region_of_no_match text
  · intro hm hge
    rw [parse_region_of_match text m hm, if_pos (by omega)]

/-- Witness for C8: a non-matching text and an inverted matching text at
concrete inputs. -/
theorem claim_C8_witness :
    parse_region "garbage" = .error .noMatch
  ∧ parse_region "chr1:5-3:1" = .error .invertedInterval :=
  ⟨(claim_C8 "garbage" ⟨"", "", "", ""⟩).1 (by decide),
   (claim_C8 "chr1:5-3:1" ⟨"chr1", "5", "3", "1"⟩).2 (by decide) (by decide)⟩

/-- Helper: a record `processRegion` accepts always has the constant
placeholder name `.` and the constant score `0`. -/
theorem processRegion_ok_fields (sizes : List (String × Int)) (flank : Int)
    (r : SimpleRegion) (b : BedRecord)
    (h : processRegion sizes flank r = .ok b) :
    b.name = "." ∧ b.score = 0 := by
  unfold processRegion at h
  split at h
  · exact Except.noConfusion h
  · split at h
    · exact Except.noConfusion h
    · split at h
      · exact Except.noConfusion h
      · injection h with h
        subst h
        exact ⟨rfl, rfl⟩

/-- Helper: for an accepted region, the record written by
`make_src_region_file` is `emitOf`, and it carries the constant name and
score. -/
theorem emitOf_fields (sizes : List (String × Int)) (flank : Int)
    (r : SimpleRegion) (h : regionAccepted sizes flank r = true) :
    (emitOf sizes flank r).name = "." ∧ (emitOf sizes flank r).score = 0 := by
  unfold regionAccepted at h
  unfold emitOf
  cases hp : processRegion sizes flank r with
  | error e =>
    rw [hp] at h
    exact Bool.noConfusion h
  | ok b =>
    exact processRegion_ok_fields sizes flank r b hp

/-- Helper: with a valid prefix followed by an invalid region,
`make_src_region_file` writes exactly the records of the prefix, in input
order, and raises the invalid region's error. -/
theorem make_src_region_file_partial (sizes : List (String × Int)) (flank : Int)
    (pre rest : List SimpleRegion) (inv : SimpleRegion)
    (hpre : ∀ r ∈ pre, regionAccepted sizes flank r = true)
    (hinv : regionAccepted sizes flank inv = false) :
    ∃ e, make_src_region_file (pre ++ inv :: rest) sizes flank
      = (pre.map (emitOf sizes flank), some e) := by
  induction pre with
  | nil =>
    unfold regionAccepted at hinv
    cases hp : processRegion sizes flank inv with
    | ok b =>
      rw [hp] at hinv
      exact Bool.noConfusion hinv
    | error e =>
      refine ⟨e, ?_⟩
      simp only [List.nil_append, List.map_nil]
      unfold make_src_region_file
      rw [hp]
  | cons r pre ih =>
    have hr := hpre r (List.mem_cons_self r pre)
    unfold regionAccepted at hr
    cases hp : processRegion sizes flank r with
    | error e =>
      rw [hp] at hr
      exact Bool.noConfusion hr
    | ok b =>
      obtain ⟨e, heq⟩ := ih (fun x hx => hpre x (List.mem_cons_of_mem r hx))
      refine ⟨e, ?_⟩
      have hcons : (r :: pre) ++ inv :: rest = r :: (pre ++ inv :: rest) := rfl
      rw [hcons]
      unfold make_src_region_file
      rw [hp, heq]
      have hemit : emitOf sizes flank r = b := by
        unfold emitOf
        rw [hp]
      simp [hemit]

/-- C7: `make_src_region_file` validates and emits per region in a single
pass in input order, writing one record per region with the constant
placeholder name `.` and constant score `0`; when the first `k` regions
are valid and the next one is invalid, the call raises after the output
already contains exactly the `k` records of the valid prefix. -/
theorem claim_C7 (sizes : List (String × Int)) (flank : Int)
    (pre rest : List SimpleRegion) (inv : SimpleRegion)
    (hpre : ∀ r ∈ pre, regionAccepted sizes flank r = true)
    (hinv : regionAccepted sizes flank inv = false) :
    (∃ e, make_src_region_file (pre ++ inv :: rest) sizes flank
            = (pre.map (emitOf sizes flank), some e))
  ∧ ∀ b ∈ (make_src_region_file (pre ++ inv :: rest) sizes flank).1,
      b.name = "." ∧ b.score = 0 := by
  obtain ⟨e, heq⟩ := make_src_region_file_partial sizes flank pre rest inv hpre hinv
  refine ⟨⟨e, heq⟩, ?_⟩
  rw [heq]
  intro b hb
  simp only [List.mem_map] at hb
  obtain ⟨r, hr, hrb⟩ := hb
  rw [← hrb]
  exact emitOf_fields sizes flank r (hpre r hr)

/-- Witness for C7: one valid region followed by one with an unknown
chromosome; the valid record is written, then the error is raised. -/
theorem claim_C7_witness :
    (∃ e, make_src_region_file
            ([⟨"chr", 0, 5, "+"⟩] ++ (⟨"chrX", 0, 5, "+"⟩ : SimpleRegion) :: [])
            [("chr", 10)] 0
          = (List.map (emitOf [("chr", 10)] 0) [⟨"chr", 0, 5, "+"⟩], some e))
  ∧ ∀ b ∈ (make_src_region_file
            ([⟨"chr", 0, 5, "+"⟩] ++ (⟨"chrX", 0, 5, "+"⟩ : SimpleRegion) :: [])
            [("chr", 10)] 0).1, b.name = "." ∧ b.score = 0 :=
  claim_C7 [("chr", 10)] 0 [⟨"chr", 0, 5, "+"⟩] [] ⟨"chrX", 0, 5, "+"⟩
    (by decide) (by decide)

/-- Helper: the export phase only ever records export events. -/
theorem exportPhase_events (fs : List String) (args : DriverArgs) :
    ∀ ev ∈ (exportPhase fs args).2,
      ev = PipelineEvent.exportSrc ∨ ev = PipelineEvent.exportDest := by
  unfold exportPhase
  split_ifs <;> intro ev hev <;> simp_all

/-- Helper: after the export phase both 2bit artifacts exist, the source
export event is recorded exactly when the source artifact was absent, and
the source export runs zero times or once accordingly. -/
theorem exportPhase_spec (fs : List String) (args : DriverArgs) :
    aux2bitPath args.halFile args.srcGenome ∈ (exportPhase fs args).1
  ∧ aux2bitPath args.halFile args.destGenome ∈ (exportPhase fs args).1
  ∧ ((PipelineEvent.exportSrc ∈ (exportPhase fs args).2)
       ↔ aux2bitPath args.halFile args.srcGenome ∉ fs)
  ∧ ((exportPhase fs args).2.count PipelineEvent.exportSrc
       = if aux2bitPath args.halFile args.srcGenome ∈ fs then 0 else 1) := by
  unfold exportPhase
  split_ifs with h1 h2 h2
  · exact ⟨h1, h2, by simp [h1], by rfl⟩
  · exact ⟨List.mem_cons_of_mem _ h1, List.mem_cons_self _ _, by simp [h1], by rfl⟩
  · exact ⟨List.mem_cons_self _ _, h2, by simp [h1], by rfl⟩
  · exact ⟨List.mem_cons_of_mem _ (List.mem_cons_self _ _),
      List.mem_cons_self _ _, by simp [h1], by rfl⟩

/-- Helper: when both artifacts already exist the export phase is a
no-op: the filesystem is unchanged and no export event is recorded. -/
theorem exportPhase_noop (fs : List String) (args : DriverArgs)
    (hs : aux2bitPath args.halFile args.srcGenome ∈ fs)
    (hd : aux2bitPath args.halFile args.destGenome ∈ fs) :
    exportPhase fs args = (fs, []) := by
  unfold exportPhase
  rw [if_pos hs, if_pos hd]

/-- Helper: the post-export steps of the driver record one of three
traces, none of which contains an export event. -/
theorem driverSteps_cases (args : DriverArgs) (cs : List (String × Int)) :
    (driverSteps args cs).1 = []
  ∨ (driverSteps args cs).1 = [.loadChromSizes]
  ∨ (driverSteps args cs).1 = [.loadChromSizes, .halLiftover, .axtChain] := by
  unfold driverSteps regionFileSteps
  cases hsr : args.srcRegion with
  | some text =>
    cases hp : parse_region text with
    | error e => simp [hp]
    | ok r =>
      cases hm : (make_src_region_file [r] cs args.flank).2 with
      | some e => simp [hp, hm]
      | none => simp [hp, hm]
  | none =>
    cases hb : args.srcBedRegions with
    | some rs =>
      cases hm : (make_src_region_file rs cs args.flank).2 with
      | some e => simp [hb, hm]
      | none => simp [hb, hm]
    | none => simp [hb]

/-- Helper: no export event occurs after the export phase. -/
theorem driverSteps_no_export (args : DriverArgs) (cs : List (String × Int)) :
    PipelineEvent.exportSrc ∉ (driverSteps args cs).1
  ∧ PipelineEvent.exportDest ∉ (driverSteps args cs).1 := by
  rcases driverSteps_cases args cs with h | h | h <;> rw [h] <;> exact ⟨by decide, by decide⟩

/-- Counterexample to C5 as stated: with a malformed `--src-region` and
no cached artifacts, the run raises the parse error, but only after the
external sequence-export steps have already been invoked — the exports
(lines 266-272) precede `parse_region` (line 279). -/
theorem claim_C5_cex :
    (runDriver [] ⟨"input.hal", "GRCh38", "CHM13", some "garbage", none, 0⟩ []).2.2
        = some (.formatError .noMatch)
  ∧ PipelineEvent.exportSrc
      ∈ (runDriver [] ⟨"input.hal", "GRCh38", "CHM13", some "garbage", none, 0⟩
          []).2.1 := by decide

/-- C5 (amended): for single-region input, a malformed region text makes
the run fail with the parse error before length loading, liftover or
chaining runs — every event in the trace is a sequence-export event; the
exports are the only external steps that can precede the parse failure
(and do run first when the cached artifacts are absent). -/
theorem claim_C5 (fs : List String) (args : DriverArgs)
    (cs : List (String × Int)) (text : String) (e : ParseError)
    (hr : args.srcRegion = some text)
    (hb : args.srcBedRegions = none)
    (hflank : 0 ≤ args.flank)
    (hp : parse_region text = .error e) :
    (runDriver fs args cs).2.2 = some (.formatError e)
  ∧ ∀ ev ∈ (runDriver fs args cs).2.1,
      ev = PipelineEvent.exportSrc ∨ ev = PipelineEvent.exportDest := by
  have hguard : ¬ (args.srcRegion.isSome = args.srcBedRegions.isSome) := by
    rw [hr, hb]
    simp
  have hflank' : ¬ (args.flank < 0) := by omega
  have hsteps : driverSteps args cs = ([], some (.formatError e)) := by
    unfold driverSteps
    rw [hr]
    simp only [hp]
  unfold runDriver
  rw [if_neg hguard, if_neg hflank']
  simp only [hsteps, List.append_nil]
  exact ⟨trivial, exportPhase_events fs args⟩

/-- Witness for C5 (amended): malformed text with both artifacts cached;
the run fails with the parse error and the trace is empty. -/
theorem claim_C5_witness :
    (runDriver ["input.hal_files/GRCh38.2bit", "input.hal_files/CHM13.2bit"]
        ⟨"input.hal", "GRCh38", "CHM13", some "garbage", none, 0⟩ []).2.2
      = some (.formatError .noMatch)
  ∧ ∀ ev ∈ (runDriver ["input.hal_files/GRCh38.2bit", "input.hal_files/CHM13.2bit"]
        ⟨"input.hal", "GRCh38", "CHM13", some "garbage", none, 0⟩ []).2.1,
      ev = PipelineEvent.exportSrc ∨ ev = PipelineEvent.exportDest :=
  claim_C5 ["input.hal_files/GRCh38.2bit", "input.hal_files/CHM13.2bit"]
    ⟨"input.hal", "GRCh38", "CHM13", some "garbage", none, 0⟩ [] "garbage" .noMatch
    rfl rfl (by decide) (by decide)

/-- C9: sequence export is memoized at the driver level — in a run that
passes the usage and flank checks, the source export event occurs exactly
when the cached artifact is absent; after the run both artifacts exist;
a second identical run records no export event (its trace is exactly the
post-export steps); and across the two runs the source export is invoked
zero times or once, according to whether the artifact already existed. -/
theorem claim_C9 (fs : List String) (args : DriverArgs) (cs : List (String × Int))
    (hargs : ¬ (args.srcRegion.isSome = args.srcBedRegions.isSome))
    (hflank : 0 ≤ args.flank) :
    ((PipelineEvent.exportSrc ∈ (runDriver fs args cs).2.1)
        ↔ aux2bitPath args.halFile args.srcGenome ∉ fs)
  ∧ aux2bitPath args.halFile args.srcGenome ∈ (runDriver fs args cs).1
  ∧ aux2bitPath args.halFile args.destGenome ∈ (runDriver fs args cs).1
  ∧ (runDriver (runDriver fs args cs).1 args cs).2.1 = (driverSteps args cs).1
  ∧ PipelineEvent.exportSrc ∉ (runDriver (runDriver fs args cs).1 args cs).2.1
  ∧ ((runDriver fs args cs).2.1
        ++ (runDriver (runDriver fs args cs).1 args cs).2.1).count
          PipelineEvent.exportSrc
      = if aux2bitPath args.halFile args.srcGenome ∈ fs then 0 else 1 := by
  have hflank' : ¬ (args.flank < 0) := by omega
  have hrun : ∀ gs : List String, runDriver gs args cs
      = ((exportPhase gs args).1,
         (exportPhase gs args).2 ++ (driverSteps args cs).1,
         (driverSteps args cs).2) := by
    intro gs
    unfold runDriver
    rw [if_neg hargs, if_neg hflank']
  obtain ⟨hp1, hq1, hiff, hcount⟩ := exportPhase_spec fs args
  have hnoexp := driverSteps_no_export args cs
  have hnoop := exportPhase_noop (exportPhase fs args).1 args hp1 hq1
  simp only [hrun, hnoop, List.nil_append]
  refine ⟨?_, hp1, hq1, trivial, hnoexp.1, ?_⟩
  · simp [List.mem_append, hnoexp.1, hiff]
  · rw [List.count_append, List.count_append,
        List.count_eq_zero.mpr hnoexp.1]
    simp [hcount]

/-- Witness for C9: an empty filesystem, a well-formed single-region run;
across two runs the source export is invoked exactly once. -/
theorem claim_C9_witness :
    ((runDriver [] ⟨"input.hal", "GRCh38", "CHM13", some "chr1:1-2:1", none, 0⟩ []).2.1
        ++ (runDriver
              (runDriver [] ⟨"input.hal", "GRCh38", "CHM13", some "chr1:1-2:1", none, 0⟩
                []).1
              ⟨"input.hal", "GRCh38", "CHM13", some "chr1:1-2:1", none, 0⟩ []).2.1).count
          PipelineEvent.exportSrc
      = if aux2bitPath "input.hal" "GRCh38" ∈ ([] : List String) then 0 else 1 :=
  (claim_C9 [] ⟨"input.hal", "GRCh38", "CHM13", some "chr1:1-2:1", none, 0⟩ []
    (by decide) (by decide)).2.2.2.2.2

end HalGeneLiftover
